import Mathlib

/-!
Verification of the tunnelz segment-rendering engine (`tunnelz/tunnel.py`).

The Python source is shallowly embedded: floats become real numbers, the
mutable `Tunnel` object becomes an explicit state record, the per-frame
`display` mutation is split into a total state update (`display_state`) and a
fallible command emission (`display`, returning `Option` because
`TWOPI / self.segs` raises `ZeroDivisionError` when `segs = 0`).  The
animation channels, waveform primitive and geometry constants live in files
outside the embedded core and are modelled abstractly from the spec.
-/

namespace Tunnelz

/-- Modelled from the spec: the closed enumeration of animation routing
targets (`animation.py` is not part of the embedded sources; the spec §3
lists exactly these ten values, and `tunnel.py` dispatches on them). -/
inductive AnimationTarget where
  | Rotation
  | Ellipse
  | Thickness
  | Radius
  | Color
  | ColorSpread
  | ColorPeriodicity
  | ColorSaturation
  | PositionX
  | PositionY
deriving DecidableEq

/-- Modelled from the spec: an animation channel as seen by the renderer
(`animation.py` is not in the embedded sources).  `value` is the scalar
sample `get_value(0)` for the current frame (after `update_state`), and
`value_vector` gives the vectorized sample `get_value_vector` pointwise at a
relative angle.  `target` is an `Option`: `none` stands for a target value
outside the recognized enumeration (Python is dynamically typed, so the
routing chains in `tunnel.py` can face unrecognized values). -/
structure Animation where
  target : Option AnimationTarget
  value : ℝ
  value_vector : ℝ → ℝ

/-- Modelled from the spec: the read-only geometry configuration
(`geometry.py` is not in the embedded sources; spec §6 lists these fields). -/
structure Geometry where
  x_center : ℤ
  y_center : ℤ
  x_size : ℝ
  y_size : ℝ
  max_radius : ℝ
  thickness_scale : ℝ
  max_x_offset : ℤ
  max_y_offset : ℤ

/-- The mutable parameter set of one tunnel (`Tunnel.__init__`). -/
structure Tunnel where
  rot_speed : ℝ
  thickness : ℝ
  radius : ℝ
  ellipse_aspect : ℝ
  col_center : ℝ
  col_width : ℝ
  col_spread : ℝ
  col_sat : ℝ
  segs : ℕ
  blacking : ℤ
  curr_angle : ℝ
  x_offset : ℤ
  y_offset : ℤ
  anims : List Animation

/-- One call to `dc_agg.draw_arc`, in the tuple order of the source:
(level, stroke, hue, sat, val, x, y, rad_x, rad_y, start, stop). -/
structure DrawCommand where
  level : ℝ
  stroke_weight : ℝ
  hue : ℝ
  sat : ℝ
  val : ℝ
  x_center : ℤ
  y_center : ℤ
  rad_x : ℤ
  rad_y : ℤ
  start_angle : ℝ
  stop_angle : ℝ

/-- The modulo divisor actually used by the blacking test in
`draw_segments_with_animations` (tunnel.py lines 161-172): the local
`blacking` collapses `-1` to `0`; the nonnegative branch takes
`abs(max(self.blacking, 1))`, the negative branch `abs(blacking)`. -/
def seg_divisor (blacking : ℤ) : ℕ :=
  if 0 ≤ (if blacking = -1 then 0 else blacking) then (max blacking 1).natAbs
  else blacking.natAbs

/-- The per-index `draw_segment` predicate of tunnel.py lines 161-172. -/
def draw_segment (blacking : ℤ) (i : ℕ) : Bool :=
  if 0 ≤ (if blacking = -1 then (0 : ℤ) else blacking) then
    decide (i % seg_divisor blacking = 0)
  else
    decide (i % seg_divisor blacking ≠ 0)

/-- Selection `seg_num = seg_num[draw_segment]` (tunnel.py lines 159, 175): the
selected segment indices, in increasing order. -/
def selected_segs (blacking : ℤ) (n_segs : ℕ) : List ℕ :=
  (List.range n_segs).filter (draw_segment blacking)

/-- The segment-selection predicate exactly as the spec §4.3 step 2 words
it (refinement reference, to be compared with `draw_segment`). -/
def spec_select_segment (blacking : ℤ) (i : ℕ) : Bool :=
  if blacking = -1 then true
  else if 0 ≤ blacking then decide (i % (max blacking 1).natAbs = 0)
  else decide (i % blacking.natAbs ≠ 0)

noncomputable section

/-- Constant `MAX_RAD_MULT = 2.0` (tunnel.py line 12). -/
def MAX_RAD_MULT : ℝ := 2

/-- Constant `MAX_ELLIPSE_ASPECT = 2.0` (tunnel.py line 13). -/
def MAX_ELLIPSE_ASPECT : ℝ := 2

/-- Constant `TWOPI = 2*pi` (tunnel.py line 15). -/
def TWOPI : ℝ := 2 * Real.pi

/-- Constant `rot_speed_scale = 0.155` rad/frame (tunnel.py line 69). -/
def rot_speed_scale : ℝ := 0.155

/-- Python float modulo `x % y`: for `y > 0` the result lies in `[0, y)`. -/
def pymod (x y : ℝ) : ℝ := x - y * ⌊x / y⌋

/-- Python `int()` applied to a float: truncation toward zero. -/
def pyint (x : ℝ) : ℤ := if 0 ≤ x then ⌊x⌋ else ⌈x⌉

/-- Accumulator `rot_adjust` of the animation loop of `display`
(tunnel.py lines 126-135). -/
def rot_adjust (anims : List Animation) : ℝ :=
  anims.foldl
    (fun acc a => if a.target = some AnimationTarget.Rotation then acc + a.value else acc) 0

/-- Accumulator `ellipse_adjust` in `display` (tunnel.py lines 126-137). -/
def ellipse_adjust (anims : List Animation) : ℝ :=
  anims.foldl
    (fun acc a => if a.target = some AnimationTarget.Ellipse then acc + a.value else acc) 0

/-- Accumulator `thickness_adjust` at one relative angle (tunnel.py lines 197-198). -/
def thickness_adjust (anims : List Animation) (rel_angle : ℝ) : ℝ :=
  anims.foldl
    (fun acc a =>
      if a.target = some AnimationTarget.Thickness then acc + a.value_vector rel_angle
      else acc) 0

/-- Accumulator `rad_adjust` at one relative angle (tunnel.py lines 199-200). -/
def rad_adjust (anims : List Animation) (rel_angle : ℝ) : ℝ :=
  anims.foldl
    (fun acc a =>
      if a.target = some AnimationTarget.Radius then acc + a.value_vector rel_angle
      else acc) 0

/-- Accumulator `col_center_adjust` (tunnel.py lines 201-202; scalar broadcast). -/
def col_center_adjust (anims : List Animation) : ℝ :=
  anims.foldl
    (fun acc a => if a.target = some AnimationTarget.Color then acc + a.value else acc) 0

/-- Accumulator `col_width_adjust` (tunnel.py lines 203-204). -/
def col_width_adjust (anims : List Animation) : ℝ :=
  anims.foldl
    (fun acc a => if a.target = some AnimationTarget.ColorSpread then acc + a.value else acc) 0

/-- Accumulator `col_period_adjust` (tunnel.py lines 205-206; the sample is divided by 16). -/
def col_period_adjust (anims : List Animation) : ℝ :=
  anims.foldl
    (fun acc a =>
      if a.target = some AnimationTarget.ColorPeriodicity then acc + a.value / 16 else acc) 0

/-- Accumulator `col_sat_adjust` at one relative angle (tunnel.py lines 207-208). -/
def col_sat_adjust (anims : List Animation) (rel_angle : ℝ) : ℝ :=
  anims.foldl
    (fun acc a =>
      if a.target = some AnimationTarget.ColorSaturation then acc + a.value_vector rel_angle
      else acc) 0

/-- Accumulator `x_adjust` (tunnel.py lines 209-210). -/
def x_adjust (g : Geometry) (anims : List Animation) : ℝ :=
  anims.foldl
    (fun acc a =>
      if a.target = some AnimationTarget.PositionX then acc + a.value * (g.x_size / 2) / 127
      else acc) 0

/-- Accumulator `y_adjust` (tunnel.py lines 211-212). -/
def y_adjust (g : Geometry) (anims : List Animation) : ℝ :=
  anims.foldl
    (fun acc a =>
      if a.target = some AnimationTarget.PositionY then acc + a.value * (g.y_size / 2) / 127
      else acc) 0

/-- The draw command emitted for one selected segment index `i`
(tunnel.py lines 214-268).  `saw` is the external `sawtooth_vector`
primitive applied pointwise (waveforms.pyx is not in the embedded sources);
its second argument is the smoothing/offset parameter, passed as `0.0`. -/
def draw_arc_command (saw : ℝ → ℝ → ℝ) (g : Geometry) (t : Tunnel)
    (as_mask : Bool) (level_scale thickness rad_x rad_y rot_interval : ℝ)
    (i : ℕ) : DrawCommand :=
  let rel_angle : ℝ := rot_interval * i
  let seg_angle : ℝ := rot_interval * i + t.curr_angle
  let stroke_weight : ℝ := |thickness * (1 + thickness_adjust t.anims rel_angle / 127)|
  let xc : ℤ := g.x_center + t.x_offset + pyint (x_adjust g t.anims)
  let yc : ℤ := g.y_center + t.y_offset + pyint (y_adjust g t.anims)
  let r_x : ℝ := |rad_x + rad_adjust t.anims rel_angle|
  let r_y : ℝ := |rad_y + rad_adjust t.anims rel_angle|
  let stop : ℝ := seg_angle + rot_interval
  if as_mask then
    ⟨255, stroke_weight, 0, 0, 0, xc, yc, pyint r_x, pyint r_y, seg_angle, stop⟩
  else
    ⟨level_scale, stroke_weight,
      pymod
        (255 * t.col_center + col_center_adjust t.anims +
          (127 * t.col_width + col_width_adjust t.anims) *
            saw (rel_angle * (16 * t.col_spread + col_period_adjust t.anims)) 0) 256,
      255 * t.col_sat + col_sat_adjust t.anims rel_angle,
      255, xc, yc, pyint r_x, pyint r_y, seg_angle, stop⟩

/-- Embedding of `Tunnel.draw_segments_with_animations` (tunnel.py lines 154-269).
Returns `none` when `self.segs = 0`: `rot_interval = TWOPI / self.segs`
(line 188) raises `ZeroDivisionError` before any command is emitted. -/
def draw_segments_with_animations (saw : ℝ → ℝ → ℝ) (g : Geometry) (t : Tunnel)
    (rad_x rad_y : ℝ) (n_segs : ℕ) (as_mask : Bool)
    (level_scale thickness : ℝ) : Option (List DrawCommand) :=
  if t.segs = 0 then none
  else
    some ((selected_segs t.blacking n_segs).map
      (draw_arc_command saw g t as_mask level_scale thickness rad_x rad_y
        (TWOPI / (t.segs : ℝ))))

/-- The state mutation performed by `Tunnel.display` before drawing
(tunnel.py lines 119-143): offset clamping and the wrapped angle update.
These happen even when the subsequent draw raises. -/
def display_state (g : Geometry) (t : Tunnel) : Tunnel :=
  { t with
    x_offset := min (max t.x_offset (-g.max_x_offset)) g.max_x_offset
    y_offset := min (max t.y_offset (-g.max_y_offset)) g.max_y_offset
    curr_angle :=
      pymod (t.curr_angle + (t.rot_speed + rot_adjust t.anims) * rot_speed_scale) TWOPI }

/-- The draw commands emitted by `Tunnel.display` (tunnel.py lines 111-152):
base radii from the truncated `radius` (line 145 applies `int()`), then
delegation to `draw_segments_with_animations`. -/
def display (saw : ℝ → ℝ → ℝ) (g : Geometry) (t : Tunnel)
    (level_scale : ℝ) (as_mask : Bool) : Option (List DrawCommand) :=
  let t' := display_state g t
  let radius : ℤ := pyint (MAX_RAD_MULT * g.max_radius * t'.radius)
  let thickness : ℝ := t'.thickness * g.thickness_scale
  let rad_x : ℝ :=
    (radius : ℝ) * (MAX_ELLIPSE_ASPECT * (t'.ellipse_aspect + ellipse_adjust t'.anims)) -
      thickness / 2
  let rad_y : ℝ := (radius : ℝ) - thickness / 2
  draw_segments_with_animations saw g t' rad_x rad_y t'.segs as_mask level_scale thickness

/-- A run of successive `display` calls: each frame supplies that frame's
rotation speed and the animation bank's post-advance samples, then the
state update of `display` is applied.  Only `display` ever writes
`curr_angle`. -/
def run_frames (g : Geometry) (t : Tunnel) (frames : List (ℝ × List Animation)) : Tunnel :=
  frames.foldl (fun st f => display_state g { st with rot_speed := f.1, anims := f.2 }) t

/-- The geometry-and-stroke projection of a draw command: everything except
level, hue, saturation and value. -/
def geom_of (c : DrawCommand) : ℝ × ℤ × ℤ × ℤ × ℤ × ℝ × ℝ :=
  (c.stroke_weight, c.x_center, c.y_center, c.rad_x, c.rad_y, c.start_angle, c.stop_angle)

/-- Structural "every command satisfies P" over an emitted command list. -/
def CmdsAll (P : DrawCommand → Prop) : List DrawCommand → Prop
  | [] => True
  | c :: cs => P c ∧ CmdsAll P cs

end

/-! ### Helper lemmas -/

/-- Positivity of 2π. -/
lemma twopi_pos : 0 < TWOPI := by
  unfold TWOPI
  positivity

/-- Rewriting `pymod` through the fractional part (for a nonzero modulus). -/
lemma pymod_eq_fract (x y : ℝ) (hy : y ≠ 0) : pymod x y = y * Int.fract (x / y) := by
  unfold pymod Int.fract
  rw [mul_sub, mul_div_cancel₀ x hy]

/-- Python float modulo with a positive modulus is nonnegative. -/
lemma pymod_nonneg (x y : ℝ) (hy : 0 < y) : 0 ≤ pymod x y := by
  rw [pymod_eq_fract x y hy.ne']
  exact mul_nonneg hy.le (Int.fract_nonneg _)

/-- Python float modulo with a positive modulus is below the modulus. -/
lemma pymod_lt (x y : ℝ) (hy : 0 < y) : pymod x y < y := by
  rw [pymod_eq_fract x y hy.ne']
  calc y * Int.fract (x / y) < y * 1 := by
        exact mul_lt_mul_of_pos_left (Int.fract_lt_one _) hy
    _ = y := mul_one y

/-- Pointwise-equal functions map a list to the same image. -/
lemma map_eq_of_pointwise {α β : Type} (f g : α → β) (l : List α)
    (h : ∀ x, f x = g x) : l.map f = l.map g := by
  rw [funext h]

/-- Pointwise-equal Boolean predicates filter a list identically. -/
lemma filter_eq_of_pointwise {α : Type} (f g : α → Bool) (l : List α)
    (h : ∀ x, f x = g x) : l.filter f = l.filter g := by
  rw [funext h]

/-- Predicate `CmdsAll` holds on a mapped list as soon as it holds at every image. -/
lemma cmdsAll_map {α : Type} (P : DrawCommand → Prop) (f : α → DrawCommand)
    (l : List α) (h : ∀ x, P (f x)) : CmdsAll P (l.map f) := by
  induction l with
  | nil => trivial
  | cons a l ih => exact ⟨h a, ih⟩

/-! ### C1: segment selection from blacking -/

/-- C1.  For every `blacking ∈ [-16,16]` and every segment count, the set
of indices selected for drawing by `draw_segments_with_animations` is
exactly the spec §4.3 step 2 formula: all indices when `blacking = -1`,
the indices with `i mod max(blacking,1) = 0` when `blacking ≥ 0`, and the
indices with `i mod |blacking| ≠ 0` when `blacking < 0` and
`blacking ≠ -1`; in particular `segs=8, blacking=2` selects `{0,2,4,6}`,
`segs=8, blacking=-1` selects all 8, and `segs=9, blacking=-3` selects
`{1,2,4,5,7,8}`. -/
theorem blacking_selects_spec_segments :
    selected_segs 2 8 = [0, 2, 4, 6] ∧
    selected_segs (-1) 8 = [0, 1, 2, 3, 4, 5, 6, 7] ∧
    selected_segs (-3) 9 = [1, 2, 4, 5, 7, 8] ∧
    ∀ blacking : ℤ, -16 ≤ blacking → blacking ≤ 16 → ∀ n_segs : ℕ,
      selected_segs blacking n_segs =
        (List.range n_segs).filter (spec_select_segment blacking) := by
  refine ⟨by decide, by decide, by decide, ?_⟩
  intro blacking _ _ n_segs
  unfold selected_segs
  refine filter_eq_of_pointwise _ _ _ ?_
  intro i
  by_cases h1 : blacking = -1
  · subst h1
    simp [draw_segment, seg_divisor, spec_select_segment, Nat.mod_one]
  · by_cases h0 : 0 ≤ blacking
    · simp [draw_segment, seg_divisor, spec_select_segment, h1, h0]
    · simp [draw_segment, seg_divisor, spec_select_segment, h1, h0]

/-- Witness for C1: concrete instantiation at `blacking = -3`,
`segment_count = 9`. -/
theorem blacking_selects_spec_segments_witness :
    ((-16 : ℤ) ≤ -3 ∧ (-3 : ℤ) ≤ 16) ∧
      selected_segs (-3) 9 = (List.range 9).filter (spec_select_segment (-3)) :=
  ⟨⟨by decide, by decide⟩,
    blacking_selects_spec_segments.2.2.2 (-3) (by decide) (by decide) 9⟩

/-! ### Concrete instances used by witnesses and counterexamples -/

/-- A concrete waveform primitive (constantly zero). -/
noncomputable def saw0 : ℝ → ℝ → ℝ := fun _ _ => 0

/-- A concrete geometry configuration. -/
noncomputable def g0 : Geometry :=
  { x_center := 0, y_center := 0, x_size := 254, y_size := 254,
    max_radius := 1, thickness_scale := 1, max_x_offset := 100, max_y_offset := 100 }

/-- A concrete tunnel state: the `Tunnel.__init__` defaults with an empty
animation bank. -/
noncomputable def t0 : Tunnel :=
  { rot_speed := 0, thickness := 0.25, radius := 0.5, ellipse_aspect := 0.5,
    col_center := 0, col_width := 0, col_spread := 0, col_sat := 0,
    segs := 126, blacking := 2, curr_angle := 0, x_offset := 0, y_offset := 0,
    anims := [] }

/-! ### C3: division faults -/

/-- Counterexample to C3 as stated: with `segment_count = 0` the call does
not run to completion — `rot_interval = TWOPI / self.segs` divides by zero
(tunnel.py line 188), so `display` faults (returns `none`). -/
theorem segs_zero_display_faults :
    display saw0 g0 { t0 with segs := 0 } 255 false = none := by
  simp [display, display_state, draw_segments_with_animations, t0]

/-- C3 (amended).  The blacking modulo divisor is defensively clamped and
is always at least 1 for every blacking value, and a `display` call with
`segment_count ≥ 1` runs to completion; but `segment_count = 0` is not
clamped and raises a division fault. -/
theorem blacking_divisor_clamped_display_total :
    (∀ blacking : ℤ, 1 ≤ seg_divisor blacking) ∧
    ∀ (saw : ℝ → ℝ → ℝ) (g : Geometry) (t : Tunnel) (level_scale : ℝ) (as_mask : Bool),
      1 ≤ t.segs → (display saw g t level_scale as_mask).isSome = true := by
  constructor
  · intro blacking
    by_cases hb : blacking = -1
    · subst hb; decide
    · unfold seg_divisor
      simp only [hb, if_false]
      split
      · have h1 : (1 : ℤ) ≤ max blacking 1 := le_max_right _ _
        omega
      · omega
  · intro saw g t level_scale as_mask hsegs
    have h : (display_state g t).segs = t.segs := rfl
    simp only [display, draw_segments_with_animations, h]
    rw [if_neg (by omega)]
    rfl

/-- Witness for C3 (amended): the default tunnel state has 126 segments and
its `display` call completes. -/
theorem blacking_divisor_clamped_display_total_witness :
    1 ≤ t0.segs ∧ (display saw0 g0 t0 255 false).isSome = true :=
  ⟨by norm_num [t0],
    blacking_divisor_clamped_display_total.2 saw0 g0 t0 255 false (by norm_num [t0])⟩

/-! ### C4: the rotation angle stays in [0, 2π) -/

/-- C4.  From any initial angle in `[0, 2π)`, after any number of `display`
calls — each with arbitrary rotation speed and arbitrary Rotation-channel
contributions — `curr_angle` remains in `[0, 2π)`. -/
theorem curr_angle_stays_in_range (g : Geometry) (t : Tunnel)
    (frames : List (ℝ × List Animation))
    (h0 : 0 ≤ t.curr_angle) (h1 : t.curr_angle < TWOPI) :
    0 ≤ (run_frames g t frames).curr_angle ∧
      (run_frames g t frames).curr_angle < TWOPI := by
  induction frames generalizing t with
  | nil => exact ⟨h0, h1⟩
  | cons f fs ih =>
      have hstep :
          0 ≤ (display_state g { t with rot_speed := f.1, anims := f.2 }).curr_angle ∧
            (display_state g { t with rot_speed := f.1, anims := f.2 }).curr_angle <
              TWOPI := by
        constructor
        · exact pymod_nonneg _ _ twopi_pos
        · exact pymod_lt _ _ twopi_pos
      exact ih _ hstep.1 hstep.2

/-- Witness for C4: the default state (angle 0) run for three frames. -/
theorem curr_angle_stays_in_range_witness :
    (0 ≤ t0.curr_angle ∧ t0.curr_angle < TWOPI) ∧
      (0 ≤ (run_frames g0 t0 [(1, []), (-1, []), (0.5, [])]).curr_angle ∧
        (run_frames g0 t0 [(1, []), (-1, []), (0.5, [])]).curr_angle < TWOPI) :=
  ⟨⟨le_refl 0, twopi_pos⟩,
    curr_angle_stays_in_range g0 t0 [(1, []), (-1, []), (0.5, [])]
      (le_refl 0) twopi_pos⟩

/-! ### C2: mask mode intensity fields -/

/-- C2.  In mask mode the whole output of `display` is independent of
`level_scale`, and every emitted draw command carries `level = 255`,
`hue = 0`, `saturation = 0` and `value = 0`. -/
theorem mask_mode_fields_fixed (saw : ℝ → ℝ → ℝ) (g : Geometry) (t : Tunnel)
    (l₁ l₂ : ℝ) :
    display saw g t l₁ true = display saw g t l₂ true ∧
      CmdsAll (fun c => c.level = 255 ∧ c.hue = 0 ∧ c.sat = 0 ∧ c.val = 0)
        ((display saw g t l₁ true).getD []) := by
  constructor
  · rfl
  · simp only [display, draw_segments_with_animations]
    split
    · trivial
    · exact cmdsAll_map _ _ _ (fun i => ⟨rfl, rfl, rfl, rfl⟩)

/-! ### C10: the mask flag and level only touch intensity fields -/

/-- C10.  For any two `level_scale` values, running `display` as a mask and
not as a mask emits the same number of draw commands, and the commands at
each position agree on stroke weight, center coordinates, both radii and
the start and stop angles. -/
theorem mask_flag_only_touches_intensity (saw : ℝ → ℝ → ℝ) (g : Geometry)
    (t : Tunnel) (l₁ l₂ : ℝ) :
    ((display saw g t l₁ true).getD []).length =
        ((display saw g t l₂ false).getD []).length ∧
      ((display saw g t l₁ true).getD []).map geom_of =
        ((display saw g t l₂ false).getD []).map geom_of := by
  have hmap :
      ((display saw g t l₁ true).getD []).map geom_of =
        ((display saw g t l₂ false).getD []).map geom_of := by
    simp only [display, draw_segments_with_animations]
    split
    · rfl
    · simp only [Option.getD_some, List.map_map]
      exact map_eq_of_pointwise _ _ _ (fun i => rfl)
  refine ⟨?_, hmap⟩
  have h1 := congrArg List.length hmap
  simpa using h1

/-! ### C5: hue range and formula -/

/-- C5.  Every hue emitted in a non-mask draw command lies in `[0, 256)`,
and the emitted hue sequence is exactly the step-11 formula
`(255*col_center + col_center_adjust + (127*col_width + col_width_adjust) *
saw(rel_angle * (16*col_spread + col_period_adjust), 0)) mod 256` evaluated
at each selected segment's relative angle. -/
theorem hue_in_range_and_formula (saw : ℝ → ℝ → ℝ) (g : Geometry) (t : Tunnel)
    (level_scale : ℝ) :
    CmdsAll (fun c => 0 ≤ c.hue ∧ c.hue < 256)
        ((display saw g t level_scale false).getD []) ∧
      ((display saw g t level_scale false).getD []).map DrawCommand.hue =
        (selected_segs t.blacking t.segs).map (fun i : ℕ =>
          pymod
            (255 * t.col_center + col_center_adjust t.anims +
              (127 * t.col_width + col_width_adjust t.anims) *
                saw ((TWOPI / (t.segs : ℝ) * (i : ℝ)) *
                  (16 * t.col_spread + col_period_adjust t.anims)) 0) 256) := by
  constructor
  · simp only [display, draw_segments_with_animations]
    split
    · trivial
    · refine cmdsAll_map _ _ _ (fun i => ?_)
      exact ⟨pymod_nonneg _ _ (by norm_num), pymod_lt _ _ (by norm_num)⟩
  · simp only [display, display_state, draw_segments_with_animations]
    split
    · rename_i h
      simp only [Option.getD_none, List.map_nil]
      rw [show t.segs = 0 from h]
      rfl
    · simp only [Option.getD_some, List.map_map]
      exact map_eq_of_pointwise _ _ _ (fun i => rfl)

/-! ### C6: center coordinates -/

/-- A concrete PositionX animation channel with scalar sample 1.7. -/
noncomputable def anim_px : Animation :=
  { target := some AnimationTarget.PositionX, value := 17 / 10,
    value_vector := fun _ => 0 }

/-- A one-segment tunnel state carrying `anim_px`. -/
noncomputable def t6 : Tunnel :=
  { rot_speed := 0, thickness := 0, radius := 0, ellipse_aspect := 0,
    col_center := 0, col_width := 0, col_spread := 0, col_sat := 0,
    segs := 1, blacking := 0, curr_angle := 0, x_offset := 0, y_offset := 0,
    anims := [anim_px] }

/-- Counterexample to C6 as stated: with an accumulated PositionX
adjustment of 1.7 the emitted center x-coordinate is 1 — Python `int()`
truncates — while the claim's round-to-nearest formula gives 2. -/
theorem center_rounding_counterexample :
    ((display saw0 g0 t6 255 false).getD []).map DrawCommand.x_center = [1] ∧
      g0.x_center + t6.x_offset + round (x_adjust g0 t6.anims) = 2 := by
  have hadj : x_adjust g0 [anim_px] = 17 / 10 := by
    norm_num [x_adjust, anim_px, g0]
  have hfl : pyint ((17 : ℝ) / 10) = 1 := by
    unfold pyint
    rw [if_pos (by norm_num), Int.floor_eq_iff]
    constructor <;> norm_num
  have hrnd : round ((17 : ℝ) / 10) = 2 := by
    rw [round_eq, show (17 : ℝ) / 10 + 1 / 2 = 11 / 5 by norm_num, Int.floor_eq_iff]
    constructor <;> norm_num
  have hsel : selected_segs (0 : ℤ) 1 = [0] := by decide
  constructor
  · simp only [display, display_state, draw_segments_with_animations, t6]
    norm_num [hsel, draw_arc_command, g0]
    show pyint (x_adjust g0 [anim_px]) = 1
    rw [hadj]
    exact hfl
  · simp only [t6, g0]
    show (0 : ℤ) + 0 + round (x_adjust g0 [anim_px]) = 2
    rw [hadj, hrnd]
    norm_num

/-- C6 (amended).  The center coordinates of every emitted draw command are
`geometry.x_center + x_offset + int(x_adjust)` (and analogously for y),
where `int` is Python truncation toward zero — not rounding to nearest —
and the offsets are the clamped values. -/
theorem center_coordinates_truncate (saw : ℝ → ℝ → ℝ) (g : Geometry) (t : Tunnel)
    (level_scale : ℝ) (as_mask : Bool) :
    CmdsAll (fun c =>
        c.x_center = g.x_center + (display_state g t).x_offset +
            pyint (x_adjust g t.anims) ∧
          c.y_center = g.y_center + (display_state g t).y_offset +
            pyint (y_adjust g t.anims))
      ((display saw g t level_scale as_mask).getD []) := by
  simp only [display, draw_segments_with_animations]
  split
  · trivial
  · refine cmdsAll_map _ _ _ (fun i => ?_)
    cases as_mask
    · exact ⟨rfl, rfl⟩
    · exact ⟨rfl, rfl⟩

/-! ### C7: base radii handed to the segment renderer -/

/-- A concrete Radius animation channel with constant vector sample 0.6. -/
noncomputable def anim_rad : Animation :=
  { target := some AnimationTarget.Radius, value := 0,
    value_vector := fun _ => 3 / 5 }

/-- A one-segment tunnel state whose untruncated base radius would be 1.5. -/
noncomputable def t7 : Tunnel :=
  { rot_speed := 0, thickness := 0, radius := 3 / 4, ellipse_aspect := 0,
    col_center := 0, col_width := 0, col_spread := 0, col_sat := 0,
    segs := 1, blacking := 0, curr_angle := 0, x_offset := 0, y_offset := 0,
    anims := [anim_rad] }

/-- Counterexample to C7 as stated: line 145 truncates the base radius with
`int()`.  Here `MAX_RAD_MULT * max_radius * radius = 1.5` is truncated to 1,
so with a Radius adjustment of 0.6 the emitted y-radius is `int(1.6) = 1`,
while the claim's untruncated base radius would emit `int(2.1) = 2`. -/
theorem base_radius_truncation_counterexample :
    ((display saw0 g0 t7 255 false).getD []).map DrawCommand.rad_y = [1] ∧
      pyint |MAX_RAD_MULT * g0.max_radius * t7.radius -
          t7.thickness * g0.thickness_scale / 2 +
          rad_adjust t7.anims (TWOPI / (t7.segs : ℝ) * 0)| = 2 := by
  have hradadj : ∀ a : ℝ, rad_adjust [anim_rad] a = 3 / 5 := by
    intro a
    norm_num [rad_adjust, anim_rad]
  have hfl1 : pyint ((8 : ℝ) / 5) = 1 := by
    unfold pyint
    rw [if_pos (by norm_num), Int.floor_eq_iff]
    constructor <;> norm_num
  have hfl32 : pyint (MAX_RAD_MULT * ((3 : ℝ) / 4)) = 1 := by
    unfold pyint MAX_RAD_MULT
    rw [if_pos (by norm_num), Int.floor_eq_iff]
    constructor <;> norm_num
  have hfl2 : pyint ((21 : ℝ) / 10) = 2 := by
    unfold pyint
    rw [if_pos (by norm_num), Int.floor_eq_iff]
    constructor <;> norm_num
  have hsel : selected_segs (0 : ℤ) 1 = [0] := by decide
  constructor
  · simp only [display, display_state, draw_segments_with_animations, t7]
    norm_num [hsel, draw_arc_command, g0, hradadj]
    rw [hfl32]
    rw [show |((1 : ℤ) : ℝ) + 3 / 5| = 8 / 5 from by
      rw [abs_of_nonneg (by norm_num)]
      norm_num]
    exact hfl1
  · simp only [t7]
    rw [hradadj]
    rw [show MAX_RAD_MULT * g0.max_radius * (3 / 4) - 0 * g0.thickness_scale / 2 +
          3 / 5 = 21 / 10 by norm_num [MAX_RAD_MULT, g0]]
    rw [show |(21 : ℝ) / 10| = 21 / 10 by norm_num [abs_of_nonneg]]
    exact hfl2

/-- C7 (amended).  `display` hands the segment renderer exactly
`rad_x = int(MAX_RAD_MULT * max_radius * radius) * (MAX_ELLIPSE_ASPECT *
(ellipse_aspect + ellipse_adjust)) - thickness_px/2` and
`rad_y = int(MAX_RAD_MULT * max_radius * radius) - thickness_px/2`, with
`thickness_px = thickness * thickness_scale`: the base radius is truncated
by Python `int()` before the aspect scaling, contrary to the claim's
"no truncation". -/
theorem display_radii_formula (saw : ℝ → ℝ → ℝ) (g : Geometry) (t : Tunnel)
    (level_scale : ℝ) (as_mask : Bool) :
    display saw g t level_scale as_mask =
      draw_segments_with_animations saw g (display_state g t)
        (((pyint (MAX_RAD_MULT * g.max_radius * t.radius) : ℤ) : ℝ) *
            (MAX_ELLIPSE_ASPECT * (t.ellipse_aspect + ellipse_adjust t.anims)) -
          t.thickness * g.thickness_scale / 2)
        (((pyint (MAX_RAD_MULT * g.max_radius * t.radius) : ℤ) : ℝ) -
          t.thickness * g.thickness_scale / 2)
        t.segs as_mask level_scale (t.thickness * g.thickness_scale) := rfl

/-! ### C8: unrecognized animation targets are silently dropped -/

/-- An animation channel whose target is outside the recognized routing
contributes nothing to the rotation accumulator. -/
lemma rot_adjust_cons_none (v : ℝ) (vf : ℝ → ℝ) (l : List Animation) :
    rot_adjust (⟨none, v, vf⟩ :: l) = rot_adjust l := by
  simp [rot_adjust]

/-- Unrecognized target: no ellipse contribution. -/
lemma ellipse_adjust_cons_none (v : ℝ) (vf : ℝ → ℝ) (l : List Animation) :
    ellipse_adjust (⟨none, v, vf⟩ :: l) = ellipse_adjust l := by
  simp [ellipse_adjust]

/-- Unrecognized target: no thickness contribution. -/
lemma thickness_adjust_cons_none (v : ℝ) (vf : ℝ → ℝ) (l : List Animation) (a : ℝ) :
    thickness_adjust (⟨none, v, vf⟩ :: l) a = thickness_adjust l a := by
  simp [thickness_adjust]

/-- Unrecognized target: no radius contribution. -/
lemma rad_adjust_cons_none (v : ℝ) (vf : ℝ → ℝ) (l : List Animation) (a : ℝ) :
    rad_adjust (⟨none, v, vf⟩ :: l) a = rad_adjust l a := by
  simp [rad_adjust]

/-- Unrecognized target: no hue-center contribution. -/
lemma col_center_adjust_cons_none (v : ℝ) (vf : ℝ → ℝ) (l : List Animation) :
    col_center_adjust (⟨none, v, vf⟩ :: l) = col_center_adjust l := by
  simp [col_center_adjust]

/-- Unrecognized target: no hue-width contribution. -/
lemma col_width_adjust_cons_none (v : ℝ) (vf : ℝ → ℝ) (l : List Animation) :
    col_width_adjust (⟨none, v, vf⟩ :: l) = col_width_adjust l := by
  simp [col_width_adjust]

/-- Unrecognized target: no color-period contribution. -/
lemma col_period_adjust_cons_none (v : ℝ) (vf : ℝ → ℝ) (l : List Animation) :
    col_period_adjust (⟨none, v, vf⟩ :: l) = col_period_adjust l := by
  simp [col_period_adjust]

/-- Unrecognized target: no saturation contribution. -/
lemma col_sat_adjust_cons_none (v : ℝ) (vf : ℝ → ℝ) (l : List Animation) (a : ℝ) :
    col_sat_adjust (⟨none, v, vf⟩ :: l) a = col_sat_adjust l a := by
  simp [col_sat_adjust]

/-- Unrecognized target: no x-position contribution. -/
lemma x_adjust_cons_none (g : Geometry) (v : ℝ) (vf : ℝ → ℝ) (l : List Animation) :
    x_adjust g (⟨none, v, vf⟩ :: l) = x_adjust g l := by
  simp [x_adjust]

/-- Unrecognized target: no y-position contribution. -/
lemma y_adjust_cons_none (g : Geometry) (v : ℝ) (vf : ℝ → ℝ) (l : List Animation) :
    y_adjust g (⟨none, v, vf⟩ :: l) = y_adjust g l := by
  simp [y_adjust]

/-- C8, settled against the code: an animation channel whose target is not
one of the recognized routing targets is silently ignored by `display` —
the emitted commands and the state mutation are identical to the channel
being absent, and the code contains no logging or flagging path at all
(there is no `else` branch and no report in either dispatch chain),
contradicting the spec's requirement that the configuration error be
reported. -/
theorem unrecognized_target_silently_dropped (saw : ℝ → ℝ → ℝ) (g : Geometry)
    (t : Tunnel) (level_scale : ℝ) (as_mask : Bool) (v : ℝ) (vf : ℝ → ℝ) :
    display saw g { t with anims := ⟨none, v, vf⟩ :: t.anims } level_scale as_mask =
        display saw g t level_scale as_mask ∧
      (display_state g { t with anims := ⟨none, v, vf⟩ :: t.anims }).curr_angle =
        (display_state g t).curr_angle ∧
      (display_state g { t with anims := ⟨none, v, vf⟩ :: t.anims }).x_offset =
        (display_state g t).x_offset ∧
      (display_state g { t with anims := ⟨none, v, vf⟩ :: t.anims }).y_offset =
        (display_state g t).y_offset := by
  refine ⟨?_, ?_, rfl, rfl⟩
  · simp only [display, display_state, draw_segments_with_animations,
      rot_adjust_cons_none, ellipse_adjust_cons_none]
    by_cases h : t.segs = 0
    · rw [if_pos h, if_pos h]
    · rw [if_neg h, if_neg h]
      exact congrArg some (map_eq_of_pointwise _ _ _ (fun i => rfl))
  · simp only [display_state, rot_adjust_cons_none]

/-! ### C9: slot order of two Radius channels -/

/-- The guarded accumulation step of the animation loops rewritten in
additive form. -/
lemma if_step_add (P : Prop) [Decidable P] (acc v : ℝ) :
    (if P then acc + v else acc) = acc + (if P then 0 + v else 0) := by
  split <;> ring

/-- A fold whose step adds a per-element contribution is the sum of the
contributions. -/
lemma foldl_step_sum (step : ℝ → Animation → ℝ)
    (hstep : ∀ acc x, step acc x = acc + step 0 x) :
    ∀ (l : List Animation) (init : ℝ),
      l.foldl step init = init + (l.map (step 0)).sum := by
  intro l
  induction l with
  | nil => intro init; simp
  | cons a l ih =>
      intro init
      rw [List.foldl_cons, ih, hstep init a, List.map_cons, List.sum_cons]
      ring

/-- Exchanging the positions of two elements leaves such a fold unchanged. -/
lemma foldl_swap_mid (step : ℝ → Animation → ℝ)
    (hstep : ∀ acc x, step acc x = acc + step 0 x)
    (l₁ l₂ l₃ : List Animation) (a b : Animation) :
    (l₁ ++ a :: (l₂ ++ b :: l₃)).foldl step 0 =
      (l₁ ++ b :: (l₂ ++ a :: l₃)).foldl step 0 := by
  rw [foldl_step_sum step hstep, foldl_step_sum step hstep]
  simp only [List.map_append, List.map_cons, List.sum_append, List.sum_cons]
  ring

/-- C9.  Exchanging the slot positions of two animation channels that both
target Radius leaves every emitted draw command (and the state update) of
`display` unchanged. -/
theorem radius_channels_slot_order_irrelevant (saw : ℝ → ℝ → ℝ) (g : Geometry)
    (t : Tunnel) (level_scale : ℝ) (as_mask : Bool)
    (l₁ l₂ l₃ : List Animation) (a b : Animation)
    (ha : a.target = some AnimationTarget.Radius)
    (hb : b.target = some AnimationTarget.Radius) :
    display saw g { t with anims := l₁ ++ a :: (l₂ ++ b :: l₃) }
        level_scale as_mask =
      display saw g { t with anims := l₁ ++ b :: (l₂ ++ a :: l₃) }
        level_scale as_mask := by
  have hrot : rot_adjust (l₁ ++ a :: (l₂ ++ b :: l₃)) =
      rot_adjust (l₁ ++ b :: (l₂ ++ a :: l₃)) := by
    unfold rot_adjust
    exact foldl_swap_mid _
      (fun acc x => if_step_add (x.target = some AnimationTarget.Rotation) acc (x.value))
      l₁ l₂ l₃ a b
  have hell : ellipse_adjust (l₁ ++ a :: (l₂ ++ b :: l₃)) =
      ellipse_adjust (l₁ ++ b :: (l₂ ++ a :: l₃)) := by
    unfold ellipse_adjust
    exact foldl_swap_mid _
      (fun acc x => if_step_add (x.target = some AnimationTarget.Ellipse) acc (x.value))
      l₁ l₂ l₃ a b
  have hth : ∀ ang : ℝ, thickness_adjust (l₁ ++ a :: (l₂ ++ b :: l₃)) ang =
      thickness_adjust (l₁ ++ b :: (l₂ ++ a :: l₃)) ang := by
    intro ang
    unfold thickness_adjust
    exact foldl_swap_mid _
      (fun acc x => if_step_add (x.target = some AnimationTarget.Thickness) acc (x.value_vector ang))
      l₁ l₂ l₃ a b
  have hrad : ∀ ang : ℝ, rad_adjust (l₁ ++ a :: (l₂ ++ b :: l₃)) ang =
      rad_adjust (l₁ ++ b :: (l₂ ++ a :: l₃)) ang := by
    intro ang
    unfold rad_adjust
    exact foldl_swap_mid _
      (fun acc x => if_step_add (x.target = some AnimationTarget.Radius) acc (x.value_vector ang))
      l₁ l₂ l₃ a b
  have hcc : col_center_adjust (l₁ ++ a :: (l₂ ++ b :: l₃)) =
      col_center_adjust (l₁ ++ b :: (l₂ ++ a :: l₃)) := by
    unfold col_center_adjust
    exact foldl_swap_mid _
      (fun acc x => if_step_add (x.target = some AnimationTarget.Color) acc (x.value))
      l₁ l₂ l₃ a b
  have hcw : col_width_adjust (l₁ ++ a :: (l₂ ++ b :: l₃)) =
      col_width_adjust (l₁ ++ b :: (l₂ ++ a :: l₃)) := by
    unfold col_width_adjust
    exact foldl_swap_mid _
      (fun acc x => if_step_add (x.target = some AnimationTarget.ColorSpread) acc (x.value))
      l₁ l₂ l₃ a b
  have hcp : col_period_adjust (l₁ ++ a :: (l₂ ++ b :: l₃)) =
      col_period_adjust (l₁ ++ b :: (l₂ ++ a :: l₃)) := by
    unfold col_period_adjust
    exact foldl_swap_mid _
      (fun acc x => if_step_add (x.target = some AnimationTarget.ColorPeriodicity) acc (x.value / 16))
      l₁ l₂ l₃ a b
  have hcs : ∀ ang : ℝ, col_sat_adjust (l₁ ++ a :: (l₂ ++ b :: l₃)) ang =
      col_sat_adjust (l₁ ++ b :: (l₂ ++ a :: l₃)) ang := by
    intro ang
    unfold col_sat_adjust
    exact foldl_swap_mid _
      (fun acc x => if_step_add (x.target = some AnimationTarget.ColorSaturation) acc (x.value_vector ang))
      l₁ l₂ l₃ a b
  have hx : x_adjust g (l₁ ++ a :: (l₂ ++ b :: l₃)) =
      x_adjust g (l₁ ++ b :: (l₂ ++ a :: l₃)) := by
    unfold x_adjust
    exact foldl_swap_mid _
      (fun acc x => if_step_add (x.target = some AnimationTarget.PositionX) acc (x.value * (g.x_size / 2) / 127))
      l₁ l₂ l₃ a b
  have hy : y_adjust g (l₁ ++ a :: (l₂ ++ b :: l₃)) =
      y_adjust g (l₁ ++ b :: (l₂ ++ a :: l₃)) := by
    unfold y_adjust
    exact foldl_swap_mid _
      (fun acc x => if_step_add (x.target = some AnimationTarget.PositionY) acc (x.value * (g.y_size / 2) / 127))
      l₁ l₂ l₃ a b
  simp only [display, display_state, draw_segments_with_animations, hrot, hell]
  by_cases h : t.segs = 0
  · rw [if_pos h, if_pos h]
  · rw [if_neg h, if_neg h]
    refine congrArg some (map_eq_of_pointwise _ _ _ (fun i => ?_))
    simp only [draw_arc_command, hth, hrad, hcc, hcw, hcp, hcs, hx, hy]

/-- Witness for C9: two concrete Radius channels in adjacent slots. -/
theorem radius_channels_slot_order_irrelevant_witness :
    ((⟨some AnimationTarget.Radius, 1, fun _ => 1⟩ : Animation).target =
        some AnimationTarget.Radius ∧
      (⟨some AnimationTarget.Radius, 2, fun _ => 2⟩ : Animation).target =
        some AnimationTarget.Radius) ∧
      display saw0 g0
          { t0 with anims := [⟨some AnimationTarget.Radius, 1, fun _ => 1⟩,
            ⟨some AnimationTarget.Radius, 2, fun _ => 2⟩] } 255 false =
        display saw0 g0
          { t0 with anims := [⟨some AnimationTarget.Radius, 2, fun _ => 2⟩,
            ⟨some AnimationTarget.Radius, 1, fun _ => 1⟩] } 255 false :=
  ⟨⟨rfl, rfl⟩,
    radius_channels_slot_order_irrelevant saw0 g0 t0 255 false [] [] []
      ⟨some AnimationTarget.Radius, 1, fun _ => 1⟩
      ⟨some AnimationTarget.Radius, 2, fun _ => 2⟩ rfl rfl⟩

end Tunnelz
